import Mathlib

/-!
Verification of the palette slot store (`src/palette/data.rs`), the error
taxonomy (`src/result.rs`) and the ZPL format plugin
(`src/palette/formats/zpl.rs`) of the palette-rs repository.

The store operations are embedded as pure state-passing functions over a
`PaletteData` structure.  The `BTreeMap` fields are embedded as `AList`
(association lists with no duplicate keys); map iteration order is not
relevant to any property proved here.  The modules `address.rs`,
`palette/element.rs` and `palette/metadata.rs` are not part of the shown
sources, so the address, color-element and metadata types are modelled from
the specification, as indicated on each definition.
-/

namespace PaletteRs

/-- An RGB color triple, from the Rust tuple struct `Color(u8, u8, u8)`
used throughout `data.rs` (e.g. `Color(255, 0, 0)`).  Components are
naturals; no arithmetic is ever performed on them by the embedded code. -/
structure Color where
  r : Nat
  g : Nat
  b : Nat
deriving DecidableEq, Repr

/-- Modelled from the spec: `address.rs` is not under `src/`.  An address is
a triple (page, line, column), per spec section 3: "Address: triple
(page: integer, line: integer, column: integer)". -/
structure Address where
  page : Nat
  line : Nat
  column : Nat
deriving DecidableEq, Repr

/-- Modelled from the spec: `address.rs` is not under `src/`.  Group keys
for the metadata map: spec section 3 derives from an address a "page group"
(all addresses sharing a page) and a "line group" (all addresses sharing a
page+line); `data.rs` and `zpl.rs` additionally use an all-palette group
(`Group::All` / `Select::All`). -/
inductive Group where
  | all : Group
  | page (pg : Nat) : Group
  | line (pg ln : Nat) : Group
deriving DecidableEq, Repr

/-- Projection `Address::page_group()`; modelled from the spec. -/
def Address.pageGroup (a : Address) : Group := Group.page a.page

/-- Projection `Address::line_group()`; modelled from the spec. -/
def Address.lineGroup (a : Address) : Group := Group.line a.page a.line

/-- Modelled from the spec: `address.rs` is not under `src/`.
`wrapped_next(page_count, line_count, column_count)` "returns the
lexicographically next address, rolling column→line→page, and wrapping page
back to zero at the end" (spec section 3). -/
def Address.wrappedNext (a : Address) (pageCount lineCount columnCount : Nat) :
    Address :=
  if a.column + 1 < columnCount then ⟨a.page, a.line, a.column + 1⟩
  else if a.line + 1 < lineCount then ⟨a.page, a.line + 1, 0⟩
  else if a.page + 1 < pageCount then ⟨a.page + 1, 0, 0⟩
  else ⟨0, 0, 0⟩

/-- Modelled from the spec: `palette/element.rs` is not under `src/`.  A
color element is "a polymorphic value over variants {direct-color(value),
derived(...)}" (spec section 3).  `data.rs` constructs the direct variant as
`ColorElement::ZerothOrder {color}`.  The derived kinds are abstracted to
the two observations the embedded code makes of them: their order (always
positive: `degree + 1`) and their possibly-unresolved current color. -/
inductive ColorElement where
  | zerothOrder (color : Color) : ColorElement
  | derived (degree : Nat) (resolved : Option Color) : ColorElement
deriving DecidableEq, Repr

/-- `ColorElement::order()`: "Order of a direct color is 0; order of a
derived element is >0" (spec section 3). -/
def ColorElement.order : ColorElement → Nat
  | ColorElement.zerothOrder _ => 0
  | ColorElement.derived degree _ => degree + 1

/-- `ColorElement::current_color()`: resolves to the stored color for the
direct variant, "may be empty if unresolved" for derived kinds
(spec section 4.2). -/
def ColorElement.currentColor : ColorElement → Option Color
  | ColorElement.zerothOrder c => some c
  | ColorElement.derived _ resolved => resolved

/-- Modelled from the spec: `palette/element.rs` is not under `src/`.  A
slot "owns exactly one color element, mutable in place" (spec section 3);
interior mutability (`Rc`/`borrow_mut`) is embedded as state passing. -/
structure Slot where
  element : ColorElement
deriving DecidableEq, Repr

/-- `Slot::new(element)`, as called by `data.rs`. -/
def Slot.new (e : ColorElement) : Slot := Slot.mk e

/-- `Slot::get_color()` "delegates to the contained element's
`current_color()`" (spec section 4.3). -/
def Slot.getColor (s : Slot) : Option Color := s.element.currentColor

/-- `Slot::get_order()` "delegates to the contained element's `order()`"
(spec section 4.3). -/
def Slot.getOrder (s : Slot) : Nat := s.element.order

/-- Modelled from the spec: `palette/metadata.rs` is not under `src/`.
Fields are those `data.rs` reads and writes: `format_label`, `name`,
`initialized` (spec section 4.4). -/
structure Metadata where
  format_label : Option String
  name : Option String
  initialized : Bool
deriving DecidableEq, Repr

/-- `Default::default()` for `Metadata`: "Absence of an entry is equivalent
to all-default values" (spec section 3). -/
def Metadata.default : Metadata := ⟨none, none, false⟩

/-- The store-level error taxonomy of `src/result.rs`, restricted to the
variants the embedded operations of `data.rs` produce.  `data.rs` spells
the capacity error `MaxSlotLimitExceeded` (its `palette/error.rs` module is
not under `src/`); `src/result.rs` and the spec spell it
`MaxCellLimitExceeded`, which is the name used here.  `data.rs` constructs
`InvalidAddress` without a payload, so it is a payload-free variant here. -/
inductive Error where
  | MaxCellLimitExceeded : Error
  | CannotSetDerivedColor : Error
  | InvalidAddress : Error
deriving DecidableEq, Repr

/-- A record of one hook invocation: `prepare_new_page` fired while
preparing the given page group, or `prepare_new_line` fired while preparing
the given line group. -/
inductive HookEvent where
  | page (pg : Nat) : HookEvent
  | line (pg ln : Nat) : HookEvent
deriving DecidableEq, Repr

/-- The palette store of `data.rs` (`struct PaletteData`).  The two
`BTreeMap` fields are embedded as association lists with unique keys.  The
`prepare_new_page` / `prepare_new_line` function-pointer fields default to
the no-op `no_op` in `data.rs` and are kept at that default by the shown
code; the `hookLog` field is pure instrumentation recording each (no-op)
hook invocation in order, so that the once-per-group firing protocol can be
stated; it influences no operation's result. -/
structure PaletteData where
  slotmap : AList (fun _ : Address => Slot)
  metadata : AList (fun _ : Group => Metadata)
  address_cursor : Address
  page_count : Nat
  default_line_count : Nat
  default_column_count : Nat
  hookLog : List HookEvent

namespace PaletteData

/-- `PaletteData::len`: `self.slotmap.len()`, the number of map entries. -/
def len (s : PaletteData) : Nat := s.slotmap.entries.length

/-- The capacity bound used by `next_free_address`:
`page_count * default_line_count * default_column_count`. -/
def capacity (s : PaletteData) : Nat :=
  s.page_count * s.default_line_count * s.default_column_count

/-- `PaletteData::get_color`:
`self.slotmap.get(&address).and_then(|slot| slot.get_color())`. -/
def getColor (s : PaletteData) (address : Address) : Option Color :=
  (s.slotmap.lookup address).bind Slot.getColor

/-- `PaletteData::check_address`: the address lies within the current
bounds. -/
def checkAddress (s : PaletteData) (address : Address) : Bool :=
  decide (address.page < s.page_count) &&
  decide (address.line < s.default_line_count) &&
  decide (address.column < s.default_column_count)

/-- `PaletteData::is_initialized`:
`self.metadata.get(&group).map_or(false, |m| m.initialized)`. -/
def isInitialized (s : PaletteData) (group : Group) : Bool :=
  ((s.metadata.lookup group).map Metadata.initialized).getD false

/-- `PaletteData::set_initialized`:
`self.metadata.entry(group).or_insert(Default::default()).initialized = value`. -/
def setInitialized (s : PaletteData) (group : Group) (value : Bool) :
    PaletteData :=
  let entry := (s.metadata.lookup group).getD Metadata.default
  { s with metadata := s.metadata.insert group { entry with initialized := value } }

/-- `PaletteData::set_label`: upsert-on-write of the `format_label`
field. -/
def setLabel (s : PaletteData) (group : Group) (format_label : String) :
    PaletteData :=
  let entry := (s.metadata.lookup group).getD Metadata.default
  { s with metadata :=
      s.metadata.insert group { entry with format_label := some format_label } }

/-- `PaletteData::get_label`. -/
def getLabel (s : PaletteData) (group : Group) : Option String :=
  (s.metadata.lookup group).bind Metadata.format_label

/-- `PaletteData::set_name`: upsert-on-write of the `name` field. -/
def setName (s : PaletteData) (group : Group) (name : String) : PaletteData :=
  let entry := (s.metadata.lookup group).getD Metadata.default
  { s with metadata := s.metadata.insert group { entry with name := some name } }

/-- `PaletteData::get_name`. -/
def getName (s : PaletteData) (group : Group) : Option String :=
  (s.metadata.lookup group).bind Metadata.name

/-- First half of `PaletteData::prepare_address`: if the address's page
group is not initialized, invoke the page hook (the default no-op, recorded
in `hookLog`) and mark the page group initialized. -/
def preparePage (s : PaletteData) (address : Address) : PaletteData :=
  if isInitialized s address.pageGroup then s
  else
    setInitialized
      { s with hookLog := s.hookLog ++ [HookEvent.page address.page] }
      address.pageGroup true

/-- Second half of `PaletteData::prepare_address`: the same for the line
group. -/
def prepareLine (s : PaletteData) (address : Address) : PaletteData :=
  if isInitialized s address.lineGroup then s
  else
    setInitialized
      { s with hookLog := s.hookLog ++ [HookEvent.line address.page address.line] }
      address.lineGroup true

/-- `PaletteData::prepare_address`: the page-group check and hook run
strictly before the line-group check and hook, as in the Rust source. -/
def prepareAddress (s : PaletteData) (address : Address) : PaletteData :=
  prepareLine (preparePage s address) address

/-- The slot-map update step shared by `set_color`, `set_element` and
`add_slot`: `self.slotmap.insert(address, ...)`. -/
def insertSlot (s : PaletteData) (address : Address) (slot : Slot) :
    PaletteData :=
  { s with slotmap := s.slotmap.insert address slot }

/-- The cursor-update step of `next_free_address_advance_cursor`:
`self.address_cursor = address.wrapped_next(...)`. -/
def advanceCursor (s : PaletteData) (address : Address) : PaletteData :=
  let c2 := address.wrappedNext s.page_count s.default_line_count
    s.default_column_count
  { s with address_cursor := c2 }

/-- `PaletteData::set_color`.  Mirrors the Rust control flow exactly: the
bounds check guards everything; `prepare_address` runs next; a present slot
of non-zero order yields `CannotSetDerivedColor`; a present order-0 slot is
replaced, returning the old element's color; **an absent slot falls through
to `Err(InvalidAddress)`** (the Rust function has no insertion branch). -/
def setColor (s : PaletteData) (address : Address) (newColor : Color) :
    Except Error (Option Color) × PaletteData :=
  if s.checkAddress address then
    let s1 := s.prepareAddress address
    let newElement := ColorElement.zerothOrder newColor
    match s1.slotmap.lookup address with
    | some slot =>
        if slot.getOrder ≠ 0 then (Except.error Error.CannotSetDerivedColor, s1)
        else
          (Except.ok slot.getColor,
            s1.insertSlot address (Slot.new newElement))
    | none => (Except.error Error.InvalidAddress, s1)
  else (Except.error Error.InvalidAddress, s)

/-- `PaletteData::set_element`: bounds check, then `prepare_address`; a
present slot is replaced (regardless of order) returning the old element; an
absent slot gets a fresh slot inserted, returning `none`. -/
def setElement (s : PaletteData) (address : Address)
    (newElement : ColorElement) :
    Except Error (Option ColorElement) × PaletteData :=
  if s.checkAddress address then
    let s1 := s.prepareAddress address
    match s1.slotmap.lookup address with
    | some slot =>
        (Except.ok (some slot.element),
          s1.insertSlot address (Slot.new newElement))
    | none =>
        (Except.ok none,
          s1.insertSlot address (Slot.new newElement))
  else (Except.error Error.InvalidAddress, s)

/-- The scan loop of `next_free_address`:
`while self.slotmap.get(&address).and_then(|s| s.get_color()).is_some()`
advance by `wrapped_next`.  The Rust loop is unbounded; here it carries
explicit fuel.  `next_free_address` supplies fuel equal to the capacity,
which suffices for every state whose scan the Rust loop completes within
one traversal of the address ring (proved below). -/
def scanLoop (s : PaletteData) : Nat → Address → Option Address
  | 0, _ => none
  | fuel + 1, address =>
      if (s.getColor address).isSome then
        scanLoop s fuel
          (address.wrappedNext s.page_count s.default_line_count
            s.default_column_count)
      else some address

/-- `PaletteData::next_free_address`: fail with the capacity error if
`len() >= capacity`, otherwise scan forward from the cursor (not advancing
it) for the first address holding no resolvable color. -/
def nextFreeAddress (s : PaletteData) : Except Error Address :=
  if s.capacity ≤ s.len then Except.error Error.MaxCellLimitExceeded
  else
    match scanLoop s s.capacity s.address_cursor with
    | some address => Except.ok address
    | none => Except.error Error.MaxCellLimitExceeded

/-- `PaletteData::next_free_address_advance_cursor`: as above, but on
success also set the cursor to the wrapped successor of the found
address. -/
def nextFreeAddressAdvanceCursor (s : PaletteData) :
    Except Error Address × PaletteData :=
  match s.nextFreeAddress with
  | Except.error e => (Except.error e, s)
  | Except.ok address => (Except.ok address, s.advanceCursor address)

/-- `PaletteData::add_slot`: allocate the next free address (advancing the
cursor), insert the slot there, run `prepare_address`, return the
address. -/
def addSlot (s : PaletteData) (newSlot : Slot) :
    Except Error Address × PaletteData :=
  match s.nextFreeAddressAdvanceCursor with
  | (Except.error e, s1) => (Except.error e, s1)
  | (Except.ok address, s1) =>
      (Except.ok address, (s1.insertSlot address newSlot).prepareAddress address)

/-- `PaletteData::add_element`: `self.add_slot(Slot::new(new_element))`. -/
def addElement (s : PaletteData) (newElement : ColorElement) :
    Except Error Address × PaletteData :=
  s.addSlot (Slot.new newElement)

/-- `PaletteData::add_color`:
`self.add_element(ColorElement::ZerothOrder {color: new_color})`. -/
def addColor (s : PaletteData) (newColor : Color) :
    Except Error Address × PaletteData :=
  s.addElement (ColorElement.zerothOrder newColor)

end PaletteData

/-- A freshly constructed store with the given bounds: empty slot map,
empty metadata, cursor at the zero address, hooks at their `no_op` default
(empty invocation log).  `Default::default()` in `data.rs` uses the
`PAGE_MAX`/`LINE_MAX`/`COLUMN_MAX` bounds of the absent `address.rs`, so
the bounds are parameters here. -/
def freshStore (pageCount lineCount columnCount : Nat) : PaletteData :=
  { slotmap := ∅
    metadata := ∅
    address_cursor := ⟨0, 0, 0⟩
    page_count := pageCount
    default_line_count := lineCount
    default_column_count := columnCount
    hookLog := [] }

/-- Whether an address lies within the bounds (P, L, C): the slot-map key
invariant and the predicate `check_address` decides. -/
def Address.inBounds (a : Address) (P L C : Nat) : Prop :=
  a.page < P ∧ a.line < L ∧ a.column < C

instance (a : Address) (P L C : Nat) : Decidable (a.inBounds P L C) := by
  unfold Address.inBounds
  infer_instance

/-- Linear index of an address in the (P, L, C) grid, in the lexicographic
(page, line, column) order: the position `wrapped_next` steps through. -/
def Address.toIndex (a : Address) (L C : Nat) : Nat :=
  (a.page * L + a.line) * C + a.column

/-- Iterated `wrapped_next`: the k-th address the allocation scan visits
starting from `start`. -/
def ringIter (P L C : Nat) (start : Address) (k : Nat) : Address :=
  (fun a => a.wrappedNext P L C)^[k] start

/-- The store reached from `freshStore P L C` by `k` successive `add_color`
calls with the colors `cs 0, cs 1, ...` (each call's result value is
discarded; its state is threaded). -/
def addColorSeq (P L C : Nat) (cs : Nat → Color) : Nat → PaletteData
  | 0 => freshStore P L C
  | k + 1 => ((addColorSeq P L C cs k).addColor (cs k)).snd

/-- One mutating store operation, for stating the hook-firing protocol over
operation sequences.  `set_initialized` is the raw metadata flag setter used
by format plugins, not an address mutation, and is not part of this
language. -/
inductive PaletteOp where
  | addColor (c : Color) : PaletteOp
  | addElement (e : ColorElement) : PaletteOp
  | addSlot (sl : Slot) : PaletteOp
  | setColor (a : Address) (c : Color) : PaletteOp
  | setElement (a : Address) (e : ColorElement) : PaletteOp
  | setLabel (g : Group) (str : String) : PaletteOp
  | setName (g : Group) (str : String) : PaletteOp

/-- Apply one mutating operation, discarding its result value. -/
def applyOp (s : PaletteData) : PaletteOp → PaletteData
  | PaletteOp.addColor c => (s.addColor c).snd
  | PaletteOp.addElement e => (s.addElement e).snd
  | PaletteOp.addSlot sl => (s.addSlot sl).snd
  | PaletteOp.setColor a c => (s.setColor a c).snd
  | PaletteOp.setElement a e => (s.setElement a e).snd
  | PaletteOp.setLabel g str => s.setLabel g str
  | PaletteOp.setName g str => s.setName g str

/-- Run a sequence of mutating operations from a fresh store. -/
def runOps (P L C : Nat) (ops : List PaletteOp) : PaletteData :=
  ops.foldl applyOp (freshStore P L C)

/-- The once-per-group hook-firing protocol: the page hook has fired
exactly once for each initialized page group and never for an uninitialized
one (so never twice for any group); likewise for line groups; and every
line-hook invocation is strictly preceded in the invocation order by the
page-hook invocation of its page. -/
def HookProtocol (s : PaletteData) : Prop :=
  (∀ pg, s.hookLog.count (HookEvent.page pg)
      = if s.isInitialized (Group.page pg) then 1 else 0) ∧
  (∀ pg ln, s.hookLog.count (HookEvent.line pg ln)
      = if s.isInitialized (Group.line pg ln) then 1 else 0) ∧
  (∀ pg ln, HookEvent.line pg ln ∈ s.hookLog →
      ∃ i j : Nat, i < j ∧ s.hookLog[i]? = some (HookEvent.page pg) ∧
        s.hookLog[j]? = some (HookEvent.line pg ln))

/-- `ZPL_HEADER` of `zpl.rs`: the fixed 12-byte header. -/
def ZPL_HEADER : List Nat :=
  [0x43, 0x53, 0x45, 0x54,
   0x04, 0x00, 0x01, 0x00,
   0x9c, 0x0d, 0x05, 0x00]

/-- `ZPL_FOOTER_A` of `zpl.rs`. -/
def ZPL_FOOTER_A : List Nat := [0x5a, 0x00, 0x00, 0x00]

/-- `ZPL_FOOTER_B` of `zpl.rs` (the constant's comment reads `// x 109`). -/
def ZPL_FOOTER_B : List Nat := [0x00, 0x00, 0x00, 0x00]

/-- `ZPL_FOOTER_C` of `zpl.rs`. -/
def ZPL_FOOTER_C : List Nat :=
  [0x00, 0x00, 0x00, 0x36,
   0x00, 0x00, 0x4e, 0x00,
   0x00, 0x14, 0x00, 0x00,
   0x36, 0x00, 0x00, 0x4e,
   0x00, 0x00, 0x14, 0x00]

/-- `ZPL_FOOTER_D` of `zpl.rs` (the constant's comment reads `// x 79`). -/
def ZPL_FOOTER_D : List Nat := [0x00, 0x00, 0x00, 0x00]

/-- `ZPL_FOOTER_E` of `zpl.rs`. -/
def ZPL_FOOTER_E : List Nat :=
  [0x22, 0x00, 0x00, 0x66,
   0x00, 0x00, 0x5a, 0x00,
   0x00, 0x22, 0x00, 0x00,
   0x86, 0x00, 0x00, 0x3c,
   0x00, 0x00, 0x22, 0x00,
   0x00, 0x86, 0x00, 0x00,
   0x3c, 0x00, 0x00, 0x20,
   0x30, 0x40, 0x3f, 0x3f,
   0x3f, 0x07, 0x07, 0x07]

/-- The byte stream produced by `ZplPalette::write_palette` on any palette:
header, then the footer blocks.  The two Rust loops are `for _ in 1..109`
and `for _ in 1..79`, which execute `109 - 1` and `79 - 1` iterations
respectively (a Rust range `lo..hi` yields `hi - lo` items); the body
region between header and footer is a placeholder that writes nothing. -/
def zplWritePalette : List Nat :=
  ZPL_HEADER ++ ZPL_FOOTER_A ++ (List.replicate (109 - 1) ZPL_FOOTER_B).flatten
    ++ ZPL_FOOTER_C ++ (List.replicate (79 - 1) ZPL_FOOTER_D).flatten
    ++ ZPL_FOOTER_E

/-- An empty store with bounds (2, 2, 2): a concrete in-bounds, absent-slot
configuration. -/
def emptyStore222 : PaletteData := freshStore 2 2 2

/-- A store with bounds (1, 1, 1) whose only slot, at the in-bounds address
(0,0,0), holds a first-order derived element that resolves to (7,7,7); its
metadata map is empty (no group initialized yet). -/
def derivedStore111 : PaletteData :=
  { slotmap :=
      (∅ : AList fun _ : Address => Slot).insert ⟨0, 0, 0⟩
        (Slot.new (ColorElement.derived 0 (some ⟨7, 7, 7⟩)))
    metadata := ∅
    address_cursor := ⟨0, 0, 0⟩
    page_count := 1
    default_line_count := 1
    default_column_count := 1
    hookLog := [] }

/-- A store whose only slot, at (0,0,0), holds a derived element, but whose
`page_count` bound has been shrunk to 0, so every address — including the
slot's own key — is outside the current bounds. -/
def derivedStoreShrunk : PaletteData :=
  { slotmap :=
      (∅ : AList fun _ : Address => Slot).insert ⟨0, 0, 0⟩
        (Slot.new (ColorElement.derived 0 (some ⟨7, 7, 7⟩)))
    metadata := ∅
    address_cursor := ⟨0, 0, 0⟩
    page_count := 0
    default_line_count := 1
    default_column_count := 1
    hookLog := [] }

/-- A store with bounds (1, 1, 2) whose slot at the cursor address (0,0,0)
holds a derived element whose current color resolves to `none`: occupied
for the capacity count, free for the allocation scan. -/
def unresolvedStore : PaletteData :=
  { slotmap :=
      (∅ : AList fun _ : Address => Slot).insert ⟨0, 0, 0⟩
        (Slot.new (ColorElement.derived 0 none))
    metadata := ∅
    address_cursor := ⟨0, 0, 0⟩
    page_count := 1
    default_line_count := 1
    default_column_count := 2
    hookLog := [] }

/-- `prepare_address` touches only the metadata map and the hook log: the
slot map, the cursor and the three bounds are unchanged. -/
theorem preparePage_preserves (s : PaletteData) (a : Address) :
    (s.preparePage a).slotmap = s.slotmap ∧
    (s.preparePage a).address_cursor = s.address_cursor ∧
    (s.preparePage a).page_count = s.page_count ∧
    (s.preparePage a).default_line_count = s.default_line_count ∧
    (s.preparePage a).default_column_count = s.default_column_count := by
  unfold PaletteData.preparePage PaletteData.setInitialized
  split <;> exact ⟨rfl, rfl, rfl, rfl, rfl⟩

/-- `prepareLine` touches only the metadata map and the hook log. -/
theorem prepareLine_preserves (s : PaletteData) (a : Address) :
    (s.prepareLine a).slotmap = s.slotmap ∧
    (s.prepareLine a).address_cursor = s.address_cursor ∧
    (s.prepareLine a).page_count = s.page_count ∧
    (s.prepareLine a).default_line_count = s.default_line_count ∧
    (s.prepareLine a).default_column_count = s.default_column_count := by
  unfold PaletteData.prepareLine PaletteData.setInitialized
  split <;> exact ⟨rfl, rfl, rfl, rfl, rfl⟩

/-- `prepare_address` touches only the metadata map and the hook log. -/
theorem prepareAddress_preserves (s : PaletteData) (a : Address) :
    (s.prepareAddress a).slotmap = s.slotmap ∧
    (s.prepareAddress a).address_cursor = s.address_cursor ∧
    (s.prepareAddress a).page_count = s.page_count ∧
    (s.prepareAddress a).default_line_count = s.default_line_count ∧
    (s.prepareAddress a).default_column_count = s.default_column_count := by
  have h1 := preparePage_preserves s a
  have h2 := prepareLine_preserves (s.preparePage a) a
  unfold PaletteData.prepareAddress
  exact ⟨h2.1.trans h1.1, h2.2.1.trans h1.2.1, h2.2.2.1.trans h1.2.2.1,
    h2.2.2.2.1.trans h1.2.2.2.1, h2.2.2.2.2.trans h1.2.2.2.2⟩

/-- `get_color` reads only the slot map. -/
theorem getColor_congr {s t : PaletteData} (h : s.slotmap = t.slotmap)
    (a : Address) : s.getColor a = t.getColor a := by
  simp [PaletteData.getColor, h]

/-- C9: for all bounds and every address, `check_address(a)` is true iff
`a.page < page_count`, `a.line < default_line_count` and
`a.column < default_column_count`; and its value depends only on the three
bounds fields of the store (in particular never on the slot map), the
function itself being a pure predicate. -/
theorem checkAddress_bounds_only (s : PaletteData) (a : Address) :
    (s.checkAddress a = true ↔
      a.page < s.page_count ∧ a.line < s.default_line_count ∧
        a.column < s.default_column_count) ∧
    (∀ t : PaletteData, t.page_count = s.page_count →
        t.default_line_count = s.default_line_count →
        t.default_column_count = s.default_column_count →
        t.checkAddress a = s.checkAddress a) := by
  refine ⟨?_, ?_⟩
  · simp [PaletteData.checkAddress, and_assoc]
  · intro t h1 h2 h3
    simp [PaletteData.checkAddress, h1, h2, h3]

/-- Witness for C9: the bounds test agrees between a store holding a slot
at (0,0,0) and the fresh store with the same (1,1,1) bounds. -/
theorem checkAddress_bounds_only_witness :
    derivedStore111.checkAddress ⟨0, 0, 0⟩
      = (freshStore 1 1 1).checkAddress ⟨0, 0, 0⟩ :=
  (checkAddress_bounds_only (freshStore 1 1 1) ⟨0, 0, 0⟩).2 derivedStore111
    rfl rfl rfl

/-- C1 (evaluation at the failing input): on an empty store with bounds
(2,2,2), the address (0,0,0) passes the bounds check and has no slot, yet
`set_color((0,0,0), Color(1,2,3))` returns `Err(InvalidAddress)` and inserts
nothing — the Rust function has no insertion branch for an absent slot, so
it falls through to the error; afterwards `get_color` still returns none. -/
theorem setColor_absent_slot_rejected :
    emptyStore222.checkAddress ⟨0, 0, 0⟩ = true ∧
    emptyStore222.slotmap.lookup ⟨0, 0, 0⟩ = none ∧
    (emptyStore222.setColor ⟨0, 0, 0⟩ ⟨1, 2, 3⟩).fst
      = Except.error Error.InvalidAddress ∧
    (emptyStore222.setColor ⟨0, 0, 0⟩ ⟨1, 2, 3⟩).snd.slotmap.lookup ⟨0, 0, 0⟩
      = none ∧
    (emptyStore222.setColor ⟨0, 0, 0⟩ ⟨1, 2, 3⟩).snd.getColor ⟨0, 0, 0⟩
      = none := by
  set_option maxRecDepth 100000 in
  exact ⟨rfl, rfl, rfl, rfl, rfl⟩

/-- C2 (evaluation of the serializer): after the 12-byte header the ZPL
byte stream consists of the five footer constants repeated 1, 108, 1, 78
and 1 times — not 1, 109, 1, 79, 1 as the constants' own `// x 109` and
`// x 79` comments and the spec state, because `for _ in 1..109` and
`for _ in 1..79` execute only 108 and 78 iterations. -/
theorem zpl_footer_repetition_counts :
    zplWritePalette
      = ZPL_HEADER ++ ZPL_FOOTER_A
        ++ (List.replicate 108 ZPL_FOOTER_B).flatten
        ++ ZPL_FOOTER_C ++ (List.replicate 78 ZPL_FOOTER_D).flatten
        ++ ZPL_FOOTER_E ∧
    zplWritePalette
      ≠ ZPL_HEADER ++ ZPL_FOOTER_A
        ++ (List.replicate 109 ZPL_FOOTER_B).flatten
        ++ ZPL_FOOTER_C ++ (List.replicate 79 ZPL_FOOTER_D).flatten
        ++ ZPL_FOOTER_E := by
  constructor
  · rfl
  · set_option maxRecDepth 100000 in decide

/-- Inserting at a key already present in an association list keeps the
number of entries. -/
theorem entries_length_insert_of_mem {α : Type} [DecidableEq α]
    {β : α → Type} {s : AList β} {a : α} (h : a ∈ s) (b : β a) :
    (s.insert a b).entries.length = s.entries.length := by
  rw [AList.insert_entries]
  have hk : a ∈ s.entries.keys := AList.mem_keys.mp h
  obtain ⟨b', l1, l2, _, h2, h3⟩ := List.exists_of_kerase hk
  rw [h3, h2]
  simp
  omega

/-- Inserting at a fresh key grows an association list by one entry. -/
theorem entries_length_insert_of_not_mem {α : Type} [DecidableEq α]
    {β : α → Type} {s : AList β} {a : α} (h : a ∉ s) (b : β a) :
    (s.insert a b).entries.length = s.entries.length + 1 := by
  rw [AList.insert_entries_of_neg h]
  rfl

/-- Amended C5: for every store and every address a that satisfies the
current bounds and whose slot holds an element of order greater than 0,
`set_color(a, c)` fails with `CannotSetDerivedColor`, the slot map is
unchanged, and `get_color(a)` returns the same value before and after. -/
theorem setColor_derived_fails (s : PaletteData) (a : Address) (c : Color)
    (slot : Slot) (hb : s.checkAddress a = true)
    (hs : s.slotmap.lookup a = some slot) (ho : slot.getOrder ≠ 0) :
    (s.setColor a c).fst = Except.error Error.CannotSetDerivedColor ∧
    (s.setColor a c).snd.slotmap = s.slotmap ∧
    (s.setColor a c).snd.getColor a = s.getColor a := by
  have hmap := (prepareAddress_preserves s a).1
  have hlook : (s.prepareAddress a).slotmap.lookup a = some slot := by
    rw [hmap]; exact hs
  have hres : s.setColor a c
      = (Except.error Error.CannotSetDerivedColor, s.prepareAddress a) := by
    unfold PaletteData.setColor
    rw [hb]
    simp [hlook, ho]
  rw [hres]
  exact ⟨rfl, hmap, getColor_congr hmap a⟩

/-- Witness for the amended C5 at a concrete store: a derived slot at the
in-bounds address (0,0,0) makes `set_color` fail with
`CannotSetDerivedColor`. -/
theorem setColor_derived_fails_witness :
    (derivedStore111.setColor ⟨0, 0, 0⟩ ⟨1, 2, 3⟩).fst
      = Except.error Error.CannotSetDerivedColor :=
  (setColor_derived_fails derivedStore111 ⟨0, 0, 0⟩ ⟨1, 2, 3⟩
    (Slot.new (ColorElement.derived 0 (some ⟨7, 7, 7⟩))) rfl rfl
    (by decide)).1

/-- Counterexample to C5 as stated: in a store whose bounds were shrunk to
zero pages, the slot at (0,0,0) holds a derived (order 1) element, yet
`set_color` fails with `InvalidAddress` — not `CannotSetDerivedColor` —
because the bounds check runs first. -/
theorem setColor_derived_counterexample :
    (∃ slot, derivedStoreShrunk.slotmap.lookup ⟨0, 0, 0⟩ = some slot ∧
      0 < slot.getOrder) ∧
    (derivedStoreShrunk.setColor ⟨0, 0, 0⟩ ⟨1, 2, 3⟩).fst
      ≠ Except.error Error.CannotSetDerivedColor := by
  constructor
  · exact ⟨Slot.new (ColorElement.derived 0 (some ⟨7, 7, 7⟩)), rfl, by decide⟩
  · intro h
    have hv : (derivedStoreShrunk.setColor ⟨0, 0, 0⟩ ⟨1, 2, 3⟩).fst
        = Except.error Error.InvalidAddress := rfl
    rw [hv] at h
    simp at h

/-- C10: for every in-bounds address with no slot, `set_element` succeeds,
inserts a fresh slot holding the element, and returns none as the previous
element; at the identical store state, `set_color` instead returns
`Err(InvalidAddress)` (it has no insertion branch). -/
theorem setElement_absent_inserts (s : PaletteData) (a : Address)
    (e : ColorElement) (hb : s.checkAddress a = true)
    (habs : s.slotmap.lookup a = none) :
    (s.setElement a e).fst = Except.ok none ∧
    (s.setElement a e).snd.slotmap.lookup a = some (Slot.new e) ∧
    ∀ c : Color, (s.setColor a c).fst = Except.error Error.InvalidAddress := by
  have hmap := (prepareAddress_preserves s a).1
  have hlook : (s.prepareAddress a).slotmap.lookup a = none := by
    rw [hmap]; exact habs
  refine ⟨?_, ?_, ?_⟩
  · unfold PaletteData.setElement
    rw [hb]
    simp [hlook]
  · unfold PaletteData.setElement
    rw [hb]
    simp [hlook, PaletteData.insertSlot, AList.lookup_insert]
  · intro c
    unfold PaletteData.setColor
    rw [hb]
    simp [hlook]

/-- Witness for C10 at a concrete store: inserting an element at the empty
in-bounds address (0,0,0) of an empty store succeeds with no previous
element. -/
theorem setElement_absent_inserts_witness :
    (emptyStore222.setElement ⟨0, 0, 0⟩
        (ColorElement.zerothOrder ⟨4, 5, 6⟩)).fst = Except.ok none :=
  (setElement_absent_inserts emptyStore222 ⟨0, 0, 0⟩
    (ColorElement.zerothOrder ⟨4, 5, 6⟩) rfl rfl).1

/-- C8: a slot whose element resolves to no color counts toward `len` (it
is a map entry), yet the allocation scan treats its address as free; when
the scan selects that address, `add_slot` succeeds there, replacing the
existing slot without increasing `len`. -/
theorem unresolved_slot_occupies_len_but_scans_free (s : PaletteData)
    (a : Address) (slot newSlot : Slot)
    (hs : s.slotmap.lookup a = some slot)
    (_hfree : slot.getColor = none)
    (hnext : s.nextFreeAddress = Except.ok a) :
    a ∈ s.slotmap ∧
    (s.addSlot newSlot).fst = Except.ok a ∧
    (s.addSlot newSlot).snd.slotmap.lookup a = some newSlot ∧
    (s.addSlot newSlot).snd.len = s.len := by
  have hmem : a ∈ s.slotmap := by
    rw [← AList.lookup_isSome, hs]
    rfl
  have hadv : s.nextFreeAddressAdvanceCursor
      = (Except.ok a, s.advanceCursor a) := by
    unfold PaletteData.nextFreeAddressAdvanceCursor
    rw [hnext]
  have hrun : s.addSlot newSlot
      = (Except.ok a,
          ((s.advanceCursor a).insertSlot a newSlot).prepareAddress a) := by
    unfold PaletteData.addSlot
    rw [hadv]
  have hm := (prepareAddress_preserves
    ((s.advanceCursor a).insertSlot a newSlot) a).1
  have hm2 : ((s.advanceCursor a).insertSlot a newSlot).slotmap
      = s.slotmap.insert a newSlot := rfl
  refine ⟨hmem, ?_, ?_, ?_⟩
  · rw [hrun]
  · rw [hrun]
    simp only [hm, hm2]
    exact AList.lookup_insert _
  · rw [hrun]
    unfold PaletteData.len
    simp only [hm, hm2]
    exact entries_length_insert_of_mem hmem newSlot

/-- Witness for C8 at a concrete store: the unresolved derived slot at the
cursor address (0,0,0) of a capacity-2 store with `len = 1` is reallocated
by `add_slot` without changing `len`. -/
theorem unresolved_slot_occupies_len_but_scans_free_witness :
    (unresolvedStore.addSlot
        (Slot.new (ColorElement.zerothOrder ⟨1, 1, 1⟩))).fst
      = Except.ok ⟨0, 0, 0⟩ ∧
    (unresolvedStore.addSlot
        (Slot.new (ColorElement.zerothOrder ⟨1, 1, 1⟩))).snd.len
      = unresolvedStore.len :=
  have h := unresolved_slot_occupies_len_but_scans_free unresolvedStore
    ⟨0, 0, 0⟩ (Slot.new (ColorElement.derived 0 none))
    (Slot.new (ColorElement.zerothOrder ⟨1, 1, 1⟩)) rfl rfl rfl
  ⟨h.2.1, h.2.2.2⟩

/-- Counterexample to C3 as stated: on a store whose derived slot at the
in-bounds address (0,0,0) belongs to a page group not yet initialized,
`set_color` fails with `CannotSetDerivedColor`, but the page group has been
marked initialized (and the page hook fired) before the failure was
reported — a mutation applied by a failing operation. -/
theorem failing_setColor_mutates_metadata_counterexample :
    (derivedStore111.setColor ⟨0, 0, 0⟩ ⟨1, 2, 3⟩).fst
      = Except.error Error.CannotSetDerivedColor ∧
    derivedStore111.isInitialized (Group.page 0) = false ∧
    (derivedStore111.setColor ⟨0, 0, 0⟩ ⟨1, 2, 3⟩).snd.isInitialized
        (Group.page 0) = true ∧
    (derivedStore111.setColor ⟨0, 0, 0⟩ ⟨1, 2, 3⟩).snd.hookLog
      = [HookEvent.page 0, HookEvent.line 0 0] := by
  set_option maxRecDepth 100000 in
  exact ⟨rfl, rfl, rfl, rfl⟩

/-- When `set_color` fails, the resulting store is either the input store
(bounds-check failure) or the input store after `prepare_address` (failure
past the bounds check). -/
theorem setColor_error_snd (s : PaletteData) (a : Address) (c : Color)
    (e : Error) (h : (s.setColor a c).fst = Except.error e) :
    (s.setColor a c).snd = s ∨ (s.setColor a c).snd = s.prepareAddress a := by
  by_cases hb : s.checkAddress a = true
  · cases hl : (s.prepareAddress a).slotmap.lookup a with
    | none =>
        right
        unfold PaletteData.setColor
        rw [hb]
        simp [hl]
    | some slot =>
        by_cases ho : slot.getOrder = 0
        · exfalso
          unfold PaletteData.setColor at h
          rw [hb] at h
          simp [hl, ho] at h
        · right
          unfold PaletteData.setColor
          rw [hb]
          simp [hl, ho]
  · left
    rw [Bool.not_eq_true] at hb
    unfold PaletteData.setColor
    rw [hb]
    rfl

/-- Amended C3: failures reported by the capacity check
(`MaxCellLimitExceeded` from the add-family) and by the bounds check
(`InvalidAddress` for an out-of-bounds address) leave the store completely
unchanged; any failure of `set_color` always leaves the slot map, the
cursor and the bounds unchanged, but failures reported after the bounds
check passes (such as `CannotSetDerivedColor`) occur after
`prepare_address`, whose metadata mutations are not rolled back. -/
theorem store_error_mutation_policy :
    (∀ (s : PaletteData) (c : Color) (e : Error),
        (s.addColor c).fst = Except.error e → (s.addColor c).snd = s) ∧
    (∀ (s : PaletteData) (sl : Slot) (e : Error),
        (s.addSlot sl).fst = Except.error e → (s.addSlot sl).snd = s) ∧
    (∀ (s : PaletteData) (a : Address) (c : Color),
        s.checkAddress a = false →
          s.setColor a c = (Except.error Error.InvalidAddress, s)) ∧
    (∀ (s : PaletteData) (a : Address) (e : ColorElement),
        s.checkAddress a = false →
          s.setElement a e = (Except.error Error.InvalidAddress, s)) ∧
    (∀ (s : PaletteData) (a : Address) (c : Color) (e : Error),
        (s.setColor a c).fst = Except.error e →
          (s.setColor a c).snd.slotmap = s.slotmap ∧
          (s.setColor a c).snd.address_cursor = s.address_cursor ∧
          (s.setColor a c).snd.page_count = s.page_count ∧
          (s.setColor a c).snd.default_line_count = s.default_line_count ∧
          (s.setColor a c).snd.default_column_count
            = s.default_column_count) := by
  have haddSlot : ∀ (s : PaletteData) (sl : Slot) (e : Error),
      (s.addSlot sl).fst = Except.error e → (s.addSlot sl).snd = s := by
    intro s sl e h
    cases hn : s.nextFreeAddress with
    | error e2 =>
        have hv : s.addSlot sl = (Except.error e2, s) := by
          unfold PaletteData.addSlot PaletteData.nextFreeAddressAdvanceCursor
          rw [hn]
        rw [hv]
    | ok addr =>
        have hv : s.addSlot sl
            = (Except.ok addr,
                ((s.advanceCursor addr).insertSlot addr sl).prepareAddress
                  addr) := by
          unfold PaletteData.addSlot PaletteData.nextFreeAddressAdvanceCursor
          rw [hn]
        rw [hv] at h
        simp at h
  refine ⟨?_, haddSlot, ?_, ?_, ?_⟩
  · intro s c e h
    exact haddSlot s (Slot.new (ColorElement.zerothOrder c)) e h
  · intro s a c h
    unfold PaletteData.setColor
    rw [h]
    rfl
  · intro s a e h
    unfold PaletteData.setElement
    rw [h]
    rfl
  · intro s a c e h
    rcases setColor_error_snd s a c e h with hsnd | hsnd
    · rw [hsnd]
      exact ⟨rfl, rfl, rfl, rfl, rfl⟩
    · rw [hsnd]
      exact prepareAddress_preserves s a

/-- Witness for the amended C3: a failing out-of-bounds `set_color` on a
concrete store returns the bounds error and the very same store. -/
theorem store_error_mutation_policy_witness :
    emptyStore222.setColor ⟨5, 5, 5⟩ ⟨1, 2, 3⟩
      = (Except.error Error.InvalidAddress, emptyStore222) :=
  store_error_mutation_policy.2.2.1 emptyStore222 ⟨5, 5, 5⟩ ⟨1, 2, 3⟩ rfl

/-- Division-style uniqueness: a number written as a multiple of C plus a
remainder below C determines both parts. -/
theorem mulAdd_inj {x y c d C : Nat} (hc : c < C) (hd : d < C)
    (h : x * C + c = y * C + d) : x = y ∧ c = d := by
  rcases Nat.lt_trichotomy x y with hxy | hxy | hxy
  · exfalso
    have h1 : (x + 1) * C ≤ y * C := mul_le_mul_right' (by omega) C
    have h2 : (x + 1) * C = x * C + C := by ring
    omega
  · subst hxy
    omega
  · exfalso
    have h1 : (y + 1) * C ≤ x * C := mul_le_mul_right' (by omega) C
    have h2 : (y + 1) * C = y * C + C := by ring
    omega

/-- The linear index of an in-bounds address is below the capacity. -/
theorem toIndex_lt {P L C : Nat} {a : Address} (h : a.inBounds P L C) :
    a.toIndex L C < P * L * C := by
  obtain ⟨hp, hl, hc⟩ := h
  have h2 : (a.page + 1) * L ≤ P * L := mul_le_mul_right' (by omega) L
  have h3 : (a.page + 1) * L = a.page * L + L := by ring
  have h4 : (a.page * L + a.line + 1) * C ≤ P * L * C :=
    le_trans (mul_le_mul_right' (by omega) C) (mul_le_mul_right' le_rfl C)
  have h5 : (a.page * L + a.line + 1) * C = (a.page * L + a.line) * C + C := by
    ring
  unfold Address.toIndex
  omega

/-- The linear index is injective on in-bounds addresses. -/
theorem toIndex_inj {P L C : Nat} {a b : Address} (ha : a.inBounds P L C)
    (hb : b.inBounds P L C) (h : a.toIndex L C = b.toIndex L C) : a = b := by
  obtain ⟨hap, hal, hac⟩ := ha
  obtain ⟨hbp, hbl, hbc⟩ := hb
  unfold Address.toIndex at h
  obtain ⟨h1, h2⟩ := mulAdd_inj hac hbc h
  obtain ⟨h3, h4⟩ := mulAdd_inj hal hbl h1
  cases a
  cases b
  simp_all

/-- `wrapped_next` stays within the bounds. -/
theorem wrappedNext_inBounds {P L C : Nat} {a : Address}
    (h : a.inBounds P L C) : (a.wrappedNext P L C).inBounds P L C := by
  obtain ⟨hp, hl, hc⟩ := h
  unfold Address.wrappedNext Address.inBounds
  split_ifs with h1 h2 h3 <;> refine ⟨?_, ?_, ?_⟩ <;> simp <;> omega

/-- On in-bounds addresses, `wrapped_next` is the successor modulo the
capacity in the linear-index order: the address space is a ring. -/
theorem toIndex_wrappedNext {P L C : Nat} {a : Address}
    (h : a.inBounds P L C) :
    (a.wrappedNext P L C).toIndex L C
      = (a.toIndex L C + 1) % (P * L * C) := by
  obtain ⟨hp, hl, hc⟩ := h
  unfold Address.wrappedNext
  split_ifs with h1 h2 h3
  · have he : (Address.mk a.page a.line (a.column + 1)).toIndex L C
        = a.toIndex L C + 1 := by
      unfold Address.toIndex
      simp
      omega
    have h5 := toIndex_lt
      (show (Address.mk a.page a.line (a.column + 1)).inBounds P L C from
        ⟨hp, hl, h1⟩)
    rw [he] at h5
    rw [he, Nat.mod_eq_of_lt h5]
  · have hceq : a.column + 1 = C := by omega
    have he : (Address.mk a.page (a.line + 1) 0).toIndex L C
        = a.toIndex L C + 1 := by
      unfold Address.toIndex
      have hr : (a.page * L + (a.line + 1)) * C
          = (a.page * L + a.line) * C + C := by ring
      simp
      omega
    have hc0 : 0 < C := by omega
    have h5 := toIndex_lt
      (show (Address.mk a.page (a.line + 1) 0).inBounds P L C from
        ⟨hp, h2, hc0⟩)
    rw [he] at h5
    rw [he, Nat.mod_eq_of_lt h5]
  · have hceq : a.column + 1 = C := by omega
    have hleq : a.line + 1 = L := by omega
    have he : (Address.mk (a.page + 1) 0 0).toIndex L C
        = a.toIndex L C + 1 := by
      unfold Address.toIndex
      rw [← hleq, ← hceq]
      simp
      ring
    have hl0 : 0 < L := by omega
    have hc0 : 0 < C := by omega
    have h5 := toIndex_lt
      (show (Address.mk (a.page + 1) 0 0).inBounds P L C from
        ⟨h3, hl0, hc0⟩)
    rw [he] at h5
    rw [he, Nat.mod_eq_of_lt h5]
  · have hceq : a.column + 1 = C := by omega
    have hleq : a.line + 1 = L := by omega
    have hpeq : a.page + 1 = P := by omega
    have he : a.toIndex L C + 1 = P * L * C := by
      unfold Address.toIndex
      rw [← hpeq, ← hleq, ← hceq]
      ring
    rw [he, Nat.mod_self]
    unfold Address.toIndex
    simp

/-- Unfolding: zero scan steps. -/
theorem ringIter_zero (P L C : Nat) (start : Address) :
    ringIter P L C start 0 = start := rfl

/-- Unfolding: a scan step applied after k steps. -/
theorem ringIter_succ (P L C : Nat) (start : Address) (k : Nat) :
    ringIter P L C start (k + 1)
      = (ringIter P L C start k).wrappedNext P L C :=
  Function.iterate_succ_apply' _ _ _

/-- Unfolding: k+1 steps from `start` are k steps from its successor. -/
theorem ringIter_shift (P L C : Nat) (start : Address) (k : Nat) :
    ringIter P L C start (k + 1)
      = ringIter P L C (start.wrappedNext P L C) k :=
  Function.iterate_succ_apply _ _ _

/-- The k-th scan address from an in-bounds start is in bounds and sits at
linear index `(start index + k) mod capacity`. -/
theorem ringIter_spec {P L C : Nat} {start : Address}
    (hs : start.inBounds P L C) (k : Nat) :
    (ringIter P L C start k).inBounds P L C ∧
    (ringIter P L C start k).toIndex L C
      = (start.toIndex L C + k) % (P * L * C) := by
  induction k with
  | zero =>
      refine ⟨hs, ?_⟩
      rw [ringIter_zero, Nat.add_zero, Nat.mod_eq_of_lt (toIndex_lt hs)]
  | succ k ih =>
      rw [ringIter_succ]
      refine ⟨wrappedNext_inBounds ih.1, ?_⟩
      rw [toIndex_wrappedNext ih.1, ih.2, Nat.mod_add_mod]
      have hx : start.toIndex L C + k + 1 = start.toIndex L C + (k + 1) := by
        omega
      rw [hx]

/-- The scan stops immediately at an address with no resolvable color. -/
theorem scanLoop_at_free (s : PaletteData) {a : Address} {fuel : Nat}
    (hfree : s.getColor a = none) (hf : 0 < fuel) :
    PaletteData.scanLoop s fuel a = some a := by
  cases fuel with
  | zero => omega
  | succ f =>
      unfold PaletteData.scanLoop
      rw [hfree]
      rfl

/-- If some address within the fuel horizon of the scan is free, the scan
returns a free address without exhausting its fuel. -/
theorem scanLoop_finds (s : PaletteData) :
    ∀ (fuel : Nat) (a : Address),
      (∃ k, k < fuel ∧
        s.getColor (ringIter s.page_count s.default_line_count
          s.default_column_count a k) = none) →
      ∃ r, PaletteData.scanLoop s fuel a = some r ∧ s.getColor r = none := by
  intro fuel
  induction fuel with
  | zero =>
      rintro a ⟨k, hk, _⟩
      omega
  | succ f ih =>
      rintro a ⟨k, hk, hfree⟩
      by_cases hocc : (s.getColor a).isSome = true
      · have hres : PaletteData.scanLoop s (f + 1) a
            = PaletteData.scanLoop s f
                (a.wrappedNext s.page_count s.default_line_count
                  s.default_column_count) := by
          conv_lhs => unfold PaletteData.scanLoop
          rw [if_pos hocc]
        rw [hres]
        apply ih
        have hk0 : k ≠ 0 := by
          intro h0
          rw [h0, ringIter_zero] at hfree
          rw [hfree] at hocc
          simp at hocc
        refine ⟨k - 1, by omega, ?_⟩
        have hsh : ringIter s.page_count s.default_line_count
            s.default_column_count
            (a.wrappedNext s.page_count s.default_line_count
              s.default_column_count) (k - 1)
            = ringIter s.page_count s.default_line_count
                s.default_column_count a k := by
          rw [← ringIter_shift]
          have hk1 : k - 1 + 1 = k := by omega
          rw [hk1]
        rw [hsh]
        exact hfree
      · refine ⟨a, ?_, ?_⟩
        · unfold PaletteData.scanLoop
          rw [if_neg hocc]
        · cases hv : s.getColor a with
          | none => rfl
          | some c =>
              rw [hv] at hocc
              simp at hocc

/-- Pigeonhole over the bounded grid: when fewer slots exist than the
capacity, some in-bounds address has no slot at all. -/
theorem exists_free_inBounds (s : PaletteData) (h : s.len < s.capacity) :
    ∃ a : Address, a.inBounds s.page_count s.default_line_count
      s.default_column_count ∧ a ∉ s.slotmap := by
  by_contra hcon
  push_neg at hcon
  have hinj : Function.Injective
      (fun t : Nat × Nat × Nat => Address.mk t.1 t.2.1 t.2.2) := by
    rintro ⟨p1, l1, c1⟩ ⟨p2, l2, c2⟩ ht
    simp [Address.mk.injEq] at ht
    simp [ht]
  have hcard : (((Finset.range s.page_count) ×ˢ
        (Finset.range s.default_line_count) ×ˢ
        (Finset.range s.default_column_count)).image
        (fun t : Nat × Nat × Nat => Address.mk t.1 t.2.1 t.2.2)).card
      = s.capacity := by
    rw [Finset.card_image_of_injective _ hinj]
    simp [PaletteData.capacity, Nat.mul_assoc]
  have hsub : (((Finset.range s.page_count) ×ˢ
        (Finset.range s.default_line_count) ×ˢ
        (Finset.range s.default_column_count)).image
        (fun t : Nat × Nat × Nat => Address.mk t.1 t.2.1 t.2.2))
      ⊆ s.slotmap.keys.toFinset := by
    intro a ha
    rw [Finset.mem_image] at ha
    obtain ⟨t, ht, hta⟩ := ha
    rw [Finset.mem_product, Finset.mem_product] at ht
    simp only [Finset.mem_range] at ht
    have hab : a.inBounds s.page_count s.default_line_count
        s.default_column_count := by
      rw [← hta]
      exact ⟨ht.1, ht.2.1, ht.2.2⟩
    have hmem := hcon a hab
    rw [List.mem_toFinset]
    exact AList.mem_keys.mp hmem
  have hle := Finset.card_le_card hsub
  rw [hcard] at hle
  have hkeys : s.slotmap.keys.toFinset.card = s.slotmap.keys.length :=
    List.toFinset_card_of_nodup (AList.keys_nodup _)
  have hkl : s.slotmap.keys.length = s.len := by
    unfold PaletteData.len AList.keys List.keys
    rw [List.length_map]
  omega

/-- C6: whenever `len < page_count × default_line_count ×
default_column_count` (and the cursor the scan starts from lies within the
bounds), the scan of `next_free_address` finds a free address within fuel
equal to the capacity — one full traversal of the address ring — and the
operation returns that address. -/
theorem nextFreeAddress_one_traversal (s : PaletteData)
    (hlen : s.len < s.capacity)
    (hcur : s.address_cursor.inBounds s.page_count s.default_line_count
      s.default_column_count) :
    ∃ r, PaletteData.scanLoop s s.capacity s.address_cursor = some r ∧
      s.getColor r = none ∧ s.nextFreeAddress = Except.ok r := by
  obtain ⟨b, hbin, hbnot⟩ := exists_free_inBounds s hlen
  have hbfree : s.getColor b = none := by
    unfold PaletteData.getColor
    rw [AList.lookup_eq_none.mpr hbnot]
    rfl
  have hN : 0 < s.capacity := by omega
  have hi0 := toIndex_lt hcur
  have hj := toIndex_lt hbin
  unfold PaletteData.capacity at hN hi0 hj
  set N := s.page_count * s.default_line_count * s.default_column_count
    with hNdef
  set i0 := s.address_cursor.toIndex s.default_line_count
    s.default_column_count with hi0def
  set j := b.toIndex s.default_line_count s.default_column_count with hjdef
  have hkex : ∃ k, k < N ∧ s.getColor (ringIter s.page_count
      s.default_line_count s.default_column_count s.address_cursor k)
        = none := by
    refine ⟨(j + N - i0) % N, Nat.mod_lt _ hN, ?_⟩
    have hspec := ringIter_spec hcur ((j + N - i0) % N)
    have hidx : (ringIter s.page_count s.default_line_count
        s.default_column_count s.address_cursor ((j + N - i0) % N)).toIndex
          s.default_line_count s.default_column_count = j := by
      rw [hspec.2, Nat.add_mod_mod]
      have hx : i0 + (j + N - i0) = j + N := by omega
      rw [hx, Nat.add_mod_right, Nat.mod_eq_of_lt hj]
    have heq : ringIter s.page_count s.default_line_count
        s.default_column_count s.address_cursor ((j + N - i0) % N) = b :=
      toIndex_inj hspec.1 hbin (by rw [hidx])
    rw [heq]
    exact hbfree
  obtain ⟨r, hr1, hr2⟩ := scanLoop_finds s s.capacity s.address_cursor
    (by exact hkex)
  refine ⟨r, hr1, hr2, ?_⟩
  unfold PaletteData.nextFreeAddress
  rw [if_neg (by omega)]
  rw [hr1]

/-- Witness for C6 at a concrete store: capacity 2, one (unresolvable)
slot, cursor in bounds; the scan completes within capacity fuel. -/
theorem nextFreeAddress_one_traversal_witness :
    unresolvedStore.len < unresolvedStore.capacity ∧
    ∃ r, PaletteData.scanLoop unresolvedStore unresolvedStore.capacity
        unresolvedStore.address_cursor = some r ∧
      unresolvedStore.getColor r = none ∧
      unresolvedStore.nextFreeAddress = Except.ok r :=
  ⟨by decide,
    nextFreeAddress_one_traversal unresolvedStore (by decide) (by decide)⟩

/-- When the cursor itself is free and capacity is not reached, the scan
returns the cursor. -/
theorem nextFreeAddress_at_free_cursor (s : PaletteData)
    (hlen : s.len < s.capacity)
    (hfree : s.getColor s.address_cursor = none) :
    s.nextFreeAddress = Except.ok s.address_cursor := by
  unfold PaletteData.nextFreeAddress
  rw [if_neg (by omega), scanLoop_at_free s hfree (by omega)]

/-- `add_slot` at a free cursor: the slot goes to the cursor address, the
cursor advances by one ring step, and the group preparation runs. -/
theorem addSlot_at_free_cursor (s : PaletteData) (sl : Slot)
    (hlen : s.len < s.capacity)
    (hfree : s.getColor s.address_cursor = none) :
    s.addSlot sl
      = (Except.ok s.address_cursor,
          ((s.advanceCursor s.address_cursor).insertSlot s.address_cursor
            sl).prepareAddress s.address_cursor) := by
  unfold PaletteData.addSlot PaletteData.nextFreeAddressAdvanceCursor
  rw [nextFreeAddress_at_free_cursor s hlen hfree]

/-- `add_slot` on a full store: the capacity error, with the store
untouched. -/
theorem addSlot_full (s : PaletteData) (sl : Slot)
    (hfull : s.capacity ≤ s.len) :
    s.addSlot sl = (Except.error Error.MaxCellLimitExceeded, s) := by
  unfold PaletteData.addSlot PaletteData.nextFreeAddressAdvanceCursor
    PaletteData.nextFreeAddress
  rw [if_pos hfull]

/-- The zero address has linear index zero. -/
theorem toIndex_zeroAddr (L C : Nat) :
    (Address.mk 0 0 0).toIndex L C = 0 := by
  unfold Address.toIndex
  simp

/-- The state after k `add_color` calls on a fresh (P, L, C) store: bounds
unchanged, cursor at the k-th ring address, `len = k`, and exactly the
first k ring addresses occupied. -/
theorem addColorSeq_invariant (P L C : Nat) (cs : Nat → Color) :
    ∀ k, k ≤ P * L * C →
      (addColorSeq P L C cs k).page_count = P ∧
      (addColorSeq P L C cs k).default_line_count = L ∧
      (addColorSeq P L C cs k).default_column_count = C ∧
      (addColorSeq P L C cs k).address_cursor
        = ringIter P L C ⟨0, 0, 0⟩ k ∧
      (addColorSeq P L C cs k).len = k ∧
      (∀ a : Address,
        ((addColorSeq P L C cs k).slotmap.lookup a).isSome = true ↔
          ∃ i, i < k ∧ a = ringIter P L C ⟨0, 0, 0⟩ i) := by
  intro k
  induction k with
  | zero =>
      intro _
      refine ⟨rfl, rfl, rfl, rfl, rfl, ?_⟩
      intro a
      constructor
      · intro h
        simp [addColorSeq, freshStore] at h
      · rintro ⟨i, hi, _⟩
        omega
  | succ k ih =>
      intro hk1
      have hk : k < P * L * C := by omega
      obtain ⟨hb1, hb2, hb3, hcur, hlen, hdom⟩ := ih (by omega)
      have hN : 0 < P * L * C := by omega
      have hP : 0 < P := by
        rcases Nat.eq_zero_or_pos P with h | h
        · subst h; simp at hN
        · exact h
      have hL : 0 < L := by
        rcases Nat.eq_zero_or_pos L with h | h
        · subst h; simp at hN
        · exact h
      have hC : 0 < C := by
        rcases Nat.eq_zero_or_pos C with h | h
        · subst h; simp at hN
        · exact h
      have hstart : (Address.mk 0 0 0).inBounds P L C := ⟨hP, hL, hC⟩
      set s := addColorSeq P L C cs k with hsdef
      have hcap : s.capacity = P * L * C := by
        unfold PaletteData.capacity
        rw [hb1, hb2, hb3]
      have hlencap : s.len < s.capacity := by omega
      have hcurfresh : ∀ i, i < k →
          ringIter P L C ⟨0, 0, 0⟩ k ≠ ringIter P L C ⟨0, 0, 0⟩ i := by
        intro i hi hia
        have hspec1 := ringIter_spec hstart k
        have hspec2 := ringIter_spec hstart i
        have hidx : (ringIter P L C ⟨0, 0, 0⟩ k).toIndex L C
            = (ringIter P L C ⟨0, 0, 0⟩ i).toIndex L C := by rw [hia]
        rw [hspec1.2, hspec2.2, toIndex_zeroAddr] at hidx
        simp only [Nat.zero_add] at hidx
        rw [Nat.mod_eq_of_lt hk, Nat.mod_eq_of_lt (by omega)] at hidx
        omega
      have hlooknone : s.slotmap.lookup s.address_cursor = none := by
        cases hv : s.slotmap.lookup s.address_cursor with
        | none => rfl
        | some slot =>
            exfalso
            have hsome : (s.slotmap.lookup s.address_cursor).isSome = true :=
              by rw [hv]; rfl
            obtain ⟨i, hi, hia⟩ := (hdom s.address_cursor).mp hsome
            rw [hcur] at hia
            exact hcurfresh i hi hia
      have hfree : s.getColor s.address_cursor = none := by
        unfold PaletteData.getColor
        rw [hlooknone]
        rfl
      have hnotmem : s.address_cursor ∉ s.slotmap := by
        intro hmem
        have hsome := AList.lookup_isSome.mpr hmem
        rw [hlooknone] at hsome
        simp at hsome
      have hstep : s.addColor (cs k)
          = s.addSlot (Slot.new (ColorElement.zerothOrder (cs k))) := rfl
      have hrun := addSlot_at_free_cursor s
        (Slot.new (ColorElement.zerothOrder (cs k))) hlencap hfree
      have hseq : addColorSeq P L C cs (k + 1)
          = ((s.advanceCursor s.address_cursor).insertSlot s.address_cursor
              (Slot.new (ColorElement.zerothOrder (cs k)))).prepareAddress
              s.address_cursor := by
        show (s.addColor (cs k)).snd = _
        rw [hstep, hrun]
      set t := (s.advanceCursor s.address_cursor).insertSlot s.address_cursor
        (Slot.new (ColorElement.zerothOrder (cs k))) with htdef
      have hpres := prepareAddress_preserves t s.address_cursor
      have htmap : t.slotmap
          = s.slotmap.insert s.address_cursor
              (Slot.new (ColorElement.zerothOrder (cs k))) := rfl
      refine ⟨?_, ?_, ?_, ?_, ?_, ?_⟩
      · rw [hseq, hpres.2.2.1]; exact hb1
      · rw [hseq, hpres.2.2.2.1]; exact hb2
      · rw [hseq, hpres.2.2.2.2]; exact hb3
      · rw [hseq, hpres.2.1]
        show s.address_cursor.wrappedNext s.page_count s.default_line_count
            s.default_column_count = _
        rw [hb1, hb2, hb3, hcur, ← ringIter_succ]
      · rw [hseq]
        unfold PaletteData.len
        rw [hpres.1, htmap]
        rw [entries_length_insert_of_not_mem hnotmem]
        unfold PaletteData.len at hlen
        omega
      · intro a
        rw [hseq]
        rw [show ((t.prepareAddress s.address_cursor).slotmap) = t.slotmap
          from hpres.1]
        rw [htmap]
        by_cases ha : a = s.address_cursor
        · subst ha
          rw [AList.lookup_insert]
          simp only [Option.isSome_some, true_iff]
          exact ⟨k, by omega, by rw [hcur]⟩
        · rw [AList.lookup_insert_ne ha]
          rw [hdom a]
          constructor
          · rintro ⟨i, hi, hia⟩
            exact ⟨i, by omega, hia⟩
          · rintro ⟨i, hi, hia⟩
            refine ⟨i, ?_, hia⟩
            rcases Nat.lt_or_ge i k with h | h
            · exact h
            · exfalso
              have hik : i = k := by omega
              rw [hik] at hia
              rw [← hcur] at hia
              exact ha hia

/-- Distinctness on the first ring cycle from the zero address: the k-th
scan address differs from every earlier one while k is below capacity. -/
theorem ringIterZero_ne {P L C k i : Nat} (hk : k < P * L * C) (hi : i < k) :
    ringIter P L C ⟨0, 0, 0⟩ k ≠ ringIter P L C ⟨0, 0, 0⟩ i := by
  intro hia
  have hN : 0 < P * L * C := by omega
  have hP : 0 < P := by
    rcases Nat.eq_zero_or_pos P with h | h
    · subst h; simp at hN
    · exact h
  have hL : 0 < L := by
    rcases Nat.eq_zero_or_pos L with h | h
    · subst h; simp at hN
    · exact h
  have hC : 0 < C := by
    rcases Nat.eq_zero_or_pos C with h | h
    · subst h; simp at hN
    · exact h
  have hstart : (Address.mk 0 0 0).inBounds P L C := ⟨hP, hL, hC⟩
  have hspec1 := ringIter_spec hstart k
  have hspec2 := ringIter_spec hstart i
  have hidx : (ringIter P L C ⟨0, 0, 0⟩ k).toIndex L C
      = (ringIter P L C ⟨0, 0, 0⟩ i).toIndex L C := by rw [hia]
  rw [hspec1.2, hspec2.2, toIndex_zeroAddr] at hidx
  simp only [Nat.zero_add] at hidx
  rw [Nat.mod_eq_of_lt hk, Nat.mod_eq_of_lt (by omega)] at hidx
  omega

/-- C4: from an empty store with bounds (P, L, C) and capacity
N = P × L × C, each of the first N `add_color` calls succeeds (returning
the successive ring addresses from (0,0,0)); the (N+1)-th call fails with
the capacity error and returns the state of the store unchanged (so `len`
stays N and the cursor is untouched by the failing call). -/
theorem addColor_fills_capacity_then_fails (P L C : Nat) (cs : Nat → Color) :
    (∀ k, k < P * L * C →
      ((addColorSeq P L C cs k).addColor (cs k)).fst
        = Except.ok (ringIter P L C ⟨0, 0, 0⟩ k)) ∧
    ((addColorSeq P L C cs (P * L * C)).addColor (cs (P * L * C))).fst
      = Except.error Error.MaxCellLimitExceeded ∧
    ((addColorSeq P L C cs (P * L * C)).addColor (cs (P * L * C))).snd
      = addColorSeq P L C cs (P * L * C) ∧
    (addColorSeq P L C cs (P * L * C)).len = P * L * C := by
  obtain ⟨hc1, hc2, hc3, hccur, hclen, hcdom⟩ :=
    addColorSeq_invariant P L C cs (P * L * C) le_rfl
  have hcapN : (addColorSeq P L C cs (P * L * C)).capacity = P * L * C := by
    unfold PaletteData.capacity
    rw [hc1, hc2, hc3]
  have hfullstep : (addColorSeq P L C cs (P * L * C)).addColor
      (cs (P * L * C))
      = (Except.error Error.MaxCellLimitExceeded,
          addColorSeq P L C cs (P * L * C)) := by
    have hstep : (addColorSeq P L C cs (P * L * C)).addColor (cs (P * L * C))
        = (addColorSeq P L C cs (P * L * C)).addSlot
            (Slot.new (ColorElement.zerothOrder (cs (P * L * C)))) := rfl
    rw [hstep]
    exact addSlot_full _ _ (by omega)
  refine ⟨?_, by rw [hfullstep], by rw [hfullstep], hclen⟩
  intro k hk
  obtain ⟨hb1, hb2, hb3, hcur, hlen, hdom⟩ :=
    addColorSeq_invariant P L C cs k (by omega)
  set s := addColorSeq P L C cs k with hsdef
  have hcap : s.capacity = P * L * C := by
    unfold PaletteData.capacity
    rw [hb1, hb2, hb3]
  have hlencap : s.len < s.capacity := by omega
  have hlooknone : s.slotmap.lookup s.address_cursor = none := by
    cases hv : s.slotmap.lookup s.address_cursor with
    | none => rfl
    | some slot =>
        exfalso
        have hsome : (s.slotmap.lookup s.address_cursor).isSome = true := by
          rw [hv]; rfl
        obtain ⟨i, hi, hia⟩ := (hdom s.address_cursor).mp hsome
        rw [hcur] at hia
        exact ringIterZero_ne hk hi hia
  have hfree : s.getColor s.address_cursor = none := by
    unfold PaletteData.getColor
    rw [hlooknone]
    rfl
  have hstep : s.addColor (cs k)
      = s.addSlot (Slot.new (ColorElement.zerothOrder (cs k))) := rfl
  rw [hstep, addSlot_at_free_cursor s _ hlencap hfree]
  rw [hcur]

/-- Witness for C4 at capacity one: the second `add_color` on a (1,1,1)
store fails with the capacity error. -/
theorem addColor_fills_capacity_then_fails_witness :
    ((addColorSeq 1 1 1 (fun _ => ⟨0, 0, 0⟩) 1).addColor ⟨0, 0, 0⟩).fst
      = Except.error Error.MaxCellLimitExceeded :=
  (addColor_fills_capacity_then_fails 1 1 1 (fun _ => ⟨0, 0, 0⟩)).2.1

/-- Effect of `set_initialized` on the initialization flags: the given
group gets the given value, all others are untouched. -/
theorem isInitialized_setInitialized (s : PaletteData) (g : Group) (v : Bool)
    (g' : Group) :
    (s.setInitialized g v).isInitialized g'
      = if g' = g then v else s.isInitialized g' := by
  unfold PaletteData.setInitialized PaletteData.isInitialized
  by_cases h : g' = g
  · subst h
    rw [if_pos rfl]
    simp [AList.lookup_insert]
  · rw [if_neg h]
    simp [AList.lookup_insert_ne h]

/-- `set_label` never changes any initialization flag. -/
theorem isInitialized_setLabel (s : PaletteData) (g : Group) (str : String)
    (g' : Group) :
    (s.setLabel g str).isInitialized g' = s.isInitialized g' := by
  unfold PaletteData.setLabel PaletteData.isInitialized
  by_cases h : g' = g
  · subst h
    cases hv : s.metadata.lookup g' with
    | none => simp [AList.lookup_insert, hv, Metadata.default]
    | some m => simp [AList.lookup_insert, hv]
  · simp [AList.lookup_insert_ne h]

/-- `set_name` never changes any initialization flag. -/
theorem isInitialized_setName (s : PaletteData) (g : Group) (str : String)
    (g' : Group) :
    (s.setName g str).isInitialized g' = s.isInitialized g' := by
  unfold PaletteData.setName PaletteData.isInitialized
  by_cases h : g' = g
  · subst h
    cases hv : s.metadata.lookup g' with
    | none => simp [AList.lookup_insert, hv, Metadata.default]
    | some m => simp [AList.lookup_insert, hv]
  · simp [AList.lookup_insert_ne h]

/-- Complete description of `preparePage`: either the page group was
already initialized and nothing happens, or the page hook fires (one
appended log event) and exactly the page group becomes initialized. -/
theorem preparePage_spec (s : PaletteData) (a : Address) :
    (s.isInitialized a.pageGroup = true ∧ s.preparePage a = s) ∨
    (s.isInitialized a.pageGroup = false ∧
      (s.preparePage a).hookLog = s.hookLog ++ [HookEvent.page a.page] ∧
      (∀ g, (s.preparePage a).isInitialized g
        = if g = a.pageGroup then true else s.isInitialized g)) := by
  by_cases h : s.isInitialized a.pageGroup = true
  · left
    refine ⟨h, ?_⟩
    unfold PaletteData.preparePage
    rw [if_pos h]
  · right
    refine ⟨by rw [Bool.not_eq_true] at h; exact h, ?_, ?_⟩
    · unfold PaletteData.preparePage
      rw [if_neg h]
      rfl
    · intro g
      unfold PaletteData.preparePage
      rw [if_neg h]
      rw [isInitialized_setInitialized]
      rfl

/-- Complete description of `prepareLine`, symmetric to
`preparePage_spec`. -/
theorem prepareLine_spec (s : PaletteData) (a : Address) :
    (s.isInitialized a.lineGroup = true ∧ s.prepareLine a = s) ∨
    (s.isInitialized a.lineGroup = false ∧
      (s.prepareLine a).hookLog
        = s.hookLog ++ [HookEvent.line a.page a.line] ∧
      (∀ g, (s.prepareLine a).isInitialized g
        = if g = a.lineGroup then true else s.isInitialized g)) := by
  by_cases h : s.isInitialized a.lineGroup = true
  · left
    refine ⟨h, ?_⟩
    unfold PaletteData.prepareLine
    rw [if_pos h]
  · right
    refine ⟨by rw [Bool.not_eq_true] at h; exact h, ?_, ?_⟩
    · unfold PaletteData.prepareLine
      rw [if_neg h]
      rfl
    · intro g
      unfold PaletteData.prepareLine
      rw [if_neg h]
      rw [isInitialized_setInitialized]
      rfl

/-- After `preparePage`, the address's page group is initialized. -/
theorem preparePage_initialized (s : PaletteData) (a : Address) :
    (s.preparePage a).isInitialized a.pageGroup = true := by
  rcases preparePage_spec s a with ⟨hin, heq⟩ | ⟨_, _, hinit⟩
  · rw [heq]; exact hin
  · rw [hinit, if_pos rfl]

/-- The hook protocol survives `preparePage`. -/
theorem hookProtocol_preparePage (s : PaletteData) (a : Address)
    (h : HookProtocol s) : HookProtocol (s.preparePage a) := by
  obtain ⟨h1, h2, h3⟩ := h
  rcases preparePage_spec s a with ⟨_, heq⟩ | ⟨hin, hlog, hinit⟩
  · rw [heq]; exact ⟨h1, h2, h3⟩
  · refine ⟨?_, ?_, ?_⟩
    · intro pg
      rw [hlog, hinit, List.count_append]
      by_cases hp : (Group.page pg) = a.pageGroup
      · have hpg : pg = a.page := by
          unfold Address.pageGroup at hp
          injection hp
        rw [if_pos hp]
        have hz : s.hookLog.count (HookEvent.page pg) = 0 := by
          rw [h1 pg, hp, hin]
          rfl
        rw [hz]
        subst hpg
        simp
      · rw [if_neg hp]
        have hz : List.count (HookEvent.page pg) [HookEvent.page a.page]
            = 0 := by
          rw [List.count_eq_zero]
          intro hx
          have hx2 := List.mem_singleton.mp hx
          injection hx2 with hx3
          exact hp (by rw [hx3]; rfl)
        rw [hz, ← h1 pg]
        omega
    · intro pg ln
      rw [hlog, hinit, List.count_append]
      have hgne : (Group.line pg ln) ≠ a.pageGroup := by
        unfold Address.pageGroup
        intro hx
        exact Group.noConfusion hx
      rw [if_neg hgne, ← h2 pg ln]
      simp
    · intro pg ln hmem
      rw [hlog] at hmem
      have hmem2 : HookEvent.line pg ln ∈ s.hookLog := by
        rcases List.mem_append.mp hmem with hx | hx
        · exact hx
        · simp at hx
      obtain ⟨i, j, hij, hi, hj⟩ := h3 pg ln hmem2
      have hib := (List.getElem?_eq_some.mp hi).1
      have hjb := (List.getElem?_eq_some.mp hj).1
      refine ⟨i, j, hij, ?_, ?_⟩
      · rw [hlog, List.getElem?_append_left hib]
        exact hi
      · rw [hlog, List.getElem?_append_left hjb]
        exact hj

/-- The hook protocol survives `prepareLine`, provided the address's page
group is already initialized (which `preparePage` guarantees). -/
theorem hookProtocol_prepareLine (s : PaletteData) (a : Address)
    (hpage : s.isInitialized a.pageGroup = true)
    (h : HookProtocol s) : HookProtocol (s.prepareLine a) := by
  obtain ⟨h1, h2, h3⟩ := h
  rcases prepareLine_spec s a with ⟨_, heq⟩ | ⟨hin, hlog, hinit⟩
  · rw [heq]; exact ⟨h1, h2, h3⟩
  · refine ⟨?_, ?_, ?_⟩
    · intro pg
      rw [hlog, hinit, List.count_append]
      have hgne : (Group.page pg) ≠ a.lineGroup := by
        unfold Address.lineGroup
        intro hx
        exact Group.noConfusion hx
      rw [if_neg hgne, ← h1 pg]
      simp
    · intro pg ln
      rw [hlog, hinit, List.count_append]
      by_cases hp : (Group.line pg ln) = a.lineGroup
      · have hpg : pg = a.page ∧ ln = a.line := by
          unfold Address.lineGroup at hp
          injection hp with hx hy
          exact ⟨hx, hy⟩
        rw [if_pos hp]
        have hz : s.hookLog.count (HookEvent.line pg ln) = 0 := by
          rw [h2 pg ln, hp, hin]
          rfl
        rw [hz]
        obtain ⟨hx, hy⟩ := hpg
        subst hx
        subst hy
        simp
      · rw [if_neg hp]
        have hz : List.count (HookEvent.line pg ln)
            [HookEvent.line a.page a.line] = 0 := by
          rw [List.count_eq_zero]
          intro hx
          have hx2 := List.mem_singleton.mp hx
          injection hx2 with hx3 hy3
          exact hp (by rw [hx3, hy3]; rfl)
        rw [hz, ← h2 pg ln]
        omega
    · intro pg ln hmem
      rw [hlog] at hmem
      rcases List.mem_append.mp hmem with hold | hnew
      · obtain ⟨i, j, hij, hi, hj⟩ := h3 pg ln hold
        have hib := (List.getElem?_eq_some.mp hi).1
        have hjb := (List.getElem?_eq_some.mp hj).1
        refine ⟨i, j, hij, ?_, ?_⟩
        · rw [hlog, List.getElem?_append_left hib]
          exact hi
        · rw [hlog, List.getElem?_append_left hjb]
          exact hj
      · have hev : HookEvent.line pg ln = HookEvent.line a.page a.line := by
          simpa using hnew
        injection hev with hx hy
        have hcnt : s.hookLog.count (HookEvent.page pg) = 1 := by
          rw [h1 pg, hx]
          unfold Address.pageGroup at hpage
          rw [hpage]
          simp
        have hpmem : HookEvent.page pg ∈ s.hookLog := by
          by_contra hno
          rw [List.count_eq_zero.mpr hno] at hcnt
          omega
        obtain ⟨i, hi⟩ := List.mem_iff_getElem?.mp hpmem
        have hib := (List.getElem?_eq_some.mp hi).1
        refine ⟨i, s.hookLog.length, hib, ?_, ?_⟩
        · rw [hlog, List.getElem?_append_left hib]
          exact hi
        · rw [hlog, hx, hy]
          exact List.getElem?_concat_length _ _

/-- The hook protocol survives `prepare_address`. -/
theorem hookProtocol_prepareAddress (s : PaletteData) (a : Address)
    (h : HookProtocol s) : HookProtocol (s.prepareAddress a) := by
  unfold PaletteData.prepareAddress
  exact hookProtocol_prepareLine _ a (preparePage_initialized s a)
    (hookProtocol_preparePage s a h)

/-- The hook protocol only reads the hook log and the initialization
flags. -/
theorem hookProtocol_of_eq {s t : PaletteData}
    (hl : t.hookLog = s.hookLog)
    (hi : ∀ g, t.isInitialized g = s.isInitialized g)
    (h : HookProtocol s) : HookProtocol t := by
  obtain ⟨h1, h2, h3⟩ := h
  refine ⟨?_, ?_, ?_⟩
  · intro pg
    rw [hl, hi]
    exact h1 pg
  · intro pg ln
    rw [hl, hi]
    exact h2 pg ln
  · intro pg ln hmem
    rw [hl] at hmem ⊢
    exact h3 pg ln hmem

/-- The possible result states of `set_color`: unchanged, prepared, or
prepared plus a slot-map insertion. -/
theorem setColor_snd_shape (s : PaletteData) (a : Address) (c : Color) :
    (s.setColor a c).snd = s ∨ (s.setColor a c).snd = s.prepareAddress a ∨
    ∃ sl, (s.setColor a c).snd = (s.prepareAddress a).insertSlot a sl := by
  by_cases hb : s.checkAddress a = true
  · cases hl : (s.prepareAddress a).slotmap.lookup a with
    | none =>
        right; left
        unfold PaletteData.setColor
        rw [hb]
        simp [hl]
    | some slot =>
        by_cases ho : slot.getOrder = 0
        · right; right
          refine ⟨Slot.new (ColorElement.zerothOrder c), ?_⟩
          unfold PaletteData.setColor
          rw [hb]
          simp [hl, ho]
        · right; left
          unfold PaletteData.setColor
          rw [hb]
          simp [hl, ho]
  · left
    rw [Bool.not_eq_true] at hb
    unfold PaletteData.setColor
    rw [hb]
    rfl

/-- The possible result states of `set_element`: unchanged, or prepared
plus a slot-map insertion. -/
theorem setElement_snd_shape (s : PaletteData) (a : Address)
    (e : ColorElement) :
    (s.setElement a e).snd = s ∨
    ∃ sl, (s.setElement a e).snd = (s.prepareAddress a).insertSlot a sl := by
  by_cases hb : s.checkAddress a = true
  · right
    refine ⟨Slot.new e, ?_⟩
    cases hl : (s.prepareAddress a).slotmap.lookup a with
    | none =>
        unfold PaletteData.setElement
        rw [hb]
        simp [hl]
    | some slot =>
        unfold PaletteData.setElement
        rw [hb]
        simp [hl]
  · left
    rw [Bool.not_eq_true] at hb
    unfold PaletteData.setElement
    rw [hb]
    rfl

/-- The possible result states of `add_slot`: unchanged, or
cursor-advanced plus insertion plus preparation. -/
theorem addSlot_snd_shape (s : PaletteData) (sl : Slot) :
    (s.addSlot sl).snd = s ∨
    ∃ addr, (s.addSlot sl).snd
      = ((s.advanceCursor addr).insertSlot addr sl).prepareAddress addr := by
  cases hn : s.nextFreeAddress with
  | error e =>
      left
      have hv : s.addSlot sl = (Except.error e, s) := by
        unfold PaletteData.addSlot PaletteData.nextFreeAddressAdvanceCursor
        rw [hn]
      rw [hv]
  | ok addr =>
      right
      refine ⟨addr, ?_⟩
      have hv : s.addSlot sl
          = (Except.ok addr,
              ((s.advanceCursor addr).insertSlot addr sl).prepareAddress
                addr) := by
        unfold PaletteData.addSlot PaletteData.nextFreeAddressAdvanceCursor
        rw [hn]
      rw [hv]

/-- One mutating operation preserves the hook protocol. -/
theorem hookProtocol_applyOp (s : PaletteData) (op : PaletteOp)
    (h : HookProtocol s) : HookProtocol (applyOp s op) := by
  have haddSlot : ∀ sl : Slot, HookProtocol (s.addSlot sl).snd := by
    intro sl
    rcases addSlot_snd_shape s sl with hs | ⟨addr, hs⟩
    · rw [hs]; exact h
    · rw [hs]
      exact hookProtocol_prepareAddress _ addr
        (hookProtocol_of_eq rfl (fun g => rfl) h)
  cases op with
  | addColor c => exact haddSlot _
  | addElement e => exact haddSlot _
  | addSlot sl => exact haddSlot _
  | setColor a c =>
      rcases setColor_snd_shape s a c with hs | hs | ⟨sl, hs⟩
      · show HookProtocol (s.setColor a c).snd
        rw [hs]; exact h
      · show HookProtocol (s.setColor a c).snd
        rw [hs]
        exact hookProtocol_prepareAddress s a h
      · show HookProtocol (s.setColor a c).snd
        rw [hs]
        exact hookProtocol_of_eq rfl (fun g => rfl)
          (hookProtocol_prepareAddress s a h)
  | setElement a e =>
      rcases setElement_snd_shape s a e with hs | ⟨sl, hs⟩
      · show HookProtocol (s.setElement a e).snd
        rw [hs]; exact h
      · show HookProtocol (s.setElement a e).snd
        rw [hs]
        exact hookProtocol_of_eq rfl (fun g => rfl)
          (hookProtocol_prepareAddress s a h)
  | setLabel g str =>
      refine hookProtocol_of_eq ?_ (isInitialized_setLabel s g str) h
      rfl
  | setName g str =>
      refine hookProtocol_of_eq ?_ (isInitialized_setName s g str) h
      rfl

/-- A fresh store satisfies the hook protocol vacuously. -/
theorem hookProtocol_fresh (P L C : Nat) :
    HookProtocol (freshStore P L C) := by
  refine ⟨?_, ?_, ?_⟩
  · intro pg
    simp [freshStore, PaletteData.isInitialized]
  · intro pg ln
    simp [freshStore, PaletteData.isInitialized]
  · intro pg ln hmem
    simp [freshStore] at hmem

/-- The hook protocol holds after any prefix of mutating operations. -/
theorem hookProtocol_foldl :
    ∀ (ops : List PaletteOp) (s : PaletteData),
      HookProtocol s → HookProtocol (ops.foldl applyOp s) := by
  intro ops
  induction ops with
  | nil => intro s h; exact h
  | cons op rest ih =>
      intro s h
      exact ih _ (hookProtocol_applyOp s op h)

/-- C7: over any sequence of mutating store operations from a fresh store,
the page hook fires exactly once per page group (when that group has been
touched, recorded by its initialization flag) and never twice; likewise the
line hook once per line group; and in the invocation order, the line hook
of any (page, line) group fires strictly after the page hook of its page
group. -/
theorem hook_firing_protocol (P L C : Nat) (ops : List PaletteOp) :
    HookProtocol (runOps P L C ops) :=
  hookProtocol_foldl ops _ (hookProtocol_fresh P L C)

/-- Witness for C7: two mutations in the same page group of a fresh (2,2,2)
store leave exactly one page-hook invocation for page 0. -/
theorem hook_firing_protocol_witness :
    (runOps 2 2 2
        [PaletteOp.setElement ⟨0, 0, 0⟩ (ColorElement.zerothOrder ⟨1, 2, 3⟩),
         PaletteOp.setElement ⟨0, 0, 1⟩
           (ColorElement.zerothOrder ⟨4, 5, 6⟩)]).hookLog.count
      (HookEvent.page 0) = 1 := by
  have h := (hook_firing_protocol 2 2 2
    [PaletteOp.setElement ⟨0, 0, 0⟩ (ColorElement.zerothOrder ⟨1, 2, 3⟩),
     PaletteOp.setElement ⟨0, 0, 1⟩
       (ColorElement.zerothOrder ⟨4, 5, 6⟩)]).1 0
  rw [h]
  set_option maxRecDepth 100000 in decide

end PaletteRs
